import Mathlib

set_option linter.unusedVariables false

/-!
Verification of the openclaw-mqtt managed client (src/client.ts).

The development shallowly embeds the modules of `client.ts`:
the pure topic matcher `topicMatches`, the handler registry
(a JavaScript `Map` from pattern to an ordered handler list,
modelled as an association list with unique keys and insertion
order), the backoff policy `getBackoffDelay` (with the
`Math.random()` sample passed as an explicit rational parameter),
and the connection-session state machine (`connect`, `disconnect`,
`publish`, `subscribe` and the underlying-client event listeners),
modelled as explicit state-passing functions that also emit the
list of calls made to the underlying protocol engine.

JavaScript string primitives (`split("/")`, `includes(c)`) are
modelled at the character-list level so that the kernel can
evaluate them on concrete inputs.
-/

namespace OpenclawMqtt

/-! ## JavaScript string primitives -/

/-- Model of JavaScript `s.split("/")` on a single-character
separator: `""` splits to `[""]`, separators at either end produce
empty segments (`"a/".split("/") = ["a", ""]`). -/
def splitAux : List Char → List Char → List String
  | [], acc => [String.mk acc.reverse]
  | c :: cs, acc =>
    if c = '/' then String.mk acc.reverse :: splitAux cs []
    else splitAux cs (c :: acc)

/-- `s.split("/")` from JavaScript. -/
def splitSlash (s : String) : List String := splitAux s.data []

/-- `s.includes(c)` from JavaScript, for a one-character needle. -/
def includesChar (s : String) (c : Char) : Bool := s.data.contains c

/-! ## Topic matcher (client.ts, topicMatches) -/

/-- The segment walk of `topicMatches` (the `for` loop over
`patternParts` with index `i`, consuming one pattern segment and one
topic segment per iteration, followed by the final length test
`patternParts.length === topicParts.length`).  A literal or `+`
segment compared against a missing topic segment (`topicParts[i]` is
`undefined`) fails, exactly as `i >= topicParts.length` and
`p !== undefined` do in the source. -/
def matchParts : List String → List String → Bool
  | [], ts => ts.isEmpty
  | p :: ps, ts =>
    if p = "#" then
      true
    else if p = "+" then
      match ts with
      | [] => false
      | _ :: ts2 => matchParts ps ts2
    else
      match ts with
      | [] => false
      | t :: ts2 => if p = t then matchParts ps ts2 else false

/-- `topicMatches(pattern, topic)` from client.ts: exact equality
first, then the wildcard-free short-circuit
(`!pattern.includes("+") && !pattern.includes("#")`), then the
segment walk over `pattern.split("/")` and `topic.split("/")`. -/
def topicMatches (pattern topic : String) : Bool :=
  if pattern = topic then
    true
  else if !includesChar pattern '+' && !includesChar pattern '#' then
    false
  else
    matchParts (splitSlash pattern) (splitSlash topic)

/-- A pattern contains a wildcard character. -/
def hasWildcard (pattern : String) : Bool :=
  includesChar pattern '+' || includesChar pattern '#'

/-! ## Handler registry (client.ts, messageHandlers) -/

/-- A registered message handler callback, identified by `id`;
`fails` records whether invoking the callback throws. -/
structure Handler where
  id : Nat
  fails : Bool
deriving DecidableEq

/-- The `Map<string, MessageHandler[]>` of client.ts, as an
insertion-ordered association list with unique keys. -/
abbrev Registry := List (String × List Handler)

/-- `Map.prototype.get`. -/
def mapGet : Registry → String → Option (List Handler)
  | [], _ => none
  | (k2, v) :: rest, k => if k2 = k then some v else mapGet rest k

/-- `Map.prototype.set`: replaces the value under an existing key in
place, otherwise appends the new entry at the end (JavaScript `Map`
iteration order is insertion order). -/
def mapSet : Registry → String → List Handler → Registry
  | [], k, v => [(k, v)]
  | (k2, v2) :: rest, k, v =>
    if k2 = k then (k, v) :: rest else (k2, v2) :: mapSet rest k v

/-- The registry update performed by `subscribe` in client.ts:
`handlers = messageHandlers.get(topic) ?? []; handlers.push(handler);
messageHandlers.set(topic, handlers)`. -/
def register (m : Registry) (pattern : String) (h : Handler) : Registry :=
  mapSet m pattern ((mapGet m pattern).getD [] ++ [h])

/-- Keys of the registry, in insertion order. -/
def registryKeys (m : Registry) : List String := m.map (fun e => e.1)

/-- The registry has no duplicate keys (an invariant of a JavaScript
`Map`, which this model maintains through `mapSet`). -/
def keysNodup (m : Registry) : Prop := (registryKeys m).Nodup

/-- The wildcard pass of the "message" listener in client.ts: the
`for (const [pattern, patternHandlers] of messageHandlers)` loop that
skips the exact-match entry (`if (pattern === topic) continue`) and
appends `patternHandlers` whenever `topicMatches(pattern, topic)`. -/
def wildcardHandlers (topic : String) : Registry → List Handler
  | [] => []
  | (pattern, phs) :: rest =>
    if pattern = topic then wildcardHandlers topic rest
    else if topicMatches pattern topic then phs ++ wildcardHandlers topic rest
    else wildcardHandlers topic rest

/-- The full handler collection of the "message" listener:
`[...(messageHandlers.get(topic) ?? [])]` followed by the wildcard
pass. -/
def collectHandlers (m : Registry) (topic : String) : List Handler :=
  (mapGet m topic).getD [] ++ wildcardHandlers topic m

/-! ## Calls to the underlying protocol engine -/

/-- A call made to the underlying mqtt library or timer facility,
recorded in the order the code makes it. -/
inductive Action where
  | createClient
  | clientReconnect
  | armTimer (delay : ℤ)
  | subscribeU (pattern : String) (qos : Nat)
  | publishU (topic message : String) (qos : Nat)
  | closeClient
  | invoke (id : Nat) (topic : String) (payload : List Nat)
  | logHandlerError (id : Nat)
deriving DecidableEq

/-- Invoking a handler callback: throws exactly when `fails`. -/
def runHandler (h : Handler) (topic : String) (payload : List Nat) :
    Except String Unit :=
  if h.fails then Except.error "handler error" else Except.ok ()

/-- The dispatch loop of the "message" listener:
`for (const handler of handlers) try { handler(topic, payload) }
catch (err) { logger.error(...) }` — the catch logs and the loop
continues with the next handler. -/
def handlerActions (topic : String) (payload : List Nat) :
    List Handler → List Action
  | [] => []
  | h :: rest =>
    (match runHandler h topic payload with
     | Except.ok _ => [Action.invoke h.id topic payload]
     | Except.error _ =>
        [Action.invoke h.id topic payload, Action.logHandlerError h.id]) ++
    handlerActions topic payload rest

/-- The handler invocations among a list of recorded calls. -/
def invokedCalls (acts : List Action) : List (Nat × String × List Nat) :=
  acts.filterMap fun a =>
    match a with
    | Action.invoke i t p => some (i, t, p)
    | _ => none

/-- The logged handler errors among a list of recorded calls. -/
def loggedHandlerErrors (acts : List Action) : List Nat :=
  acts.filterMap fun a =>
    match a with
    | Action.logHandlerError i => some i
    | _ => none

/-- The patterns of the underlying subscribe calls among a list of
recorded calls. -/
def subscribedPatterns (acts : List Action) : List String :=
  acts.filterMap fun a =>
    match a with
    | Action.subscribeU p _ => some p
    | _ => none

/-! ## Backoff policy (client.ts, getBackoffDelay) -/

def defaultReconnectMs : ℕ := 5000

def maxReconnectMs : ℕ := 60000

def reconnectJitter : ℚ := 1 / 5

/-- `Math.min(DEFAULT_RECONNECT_MS * Math.pow(2, Math.max(0, attempt - 1)),
MAX_RECONNECT_MS)`; natural-number subtraction is `Math.max(0, attempt - 1)`. -/
def backoffBase (attempt : ℕ) : ℚ :=
  min ((defaultReconnectMs : ℚ) * 2 ^ (attempt - 1)) (maxReconnectMs : ℚ)

/-- `getBackoffDelay` from client.ts, with the `Math.random()` sample
(a value in `[0, 1)`) passed explicitly: `Math.round(base + jitter)`
where `jitter = base * RECONNECT_JITTER * rand`. -/
def getBackoffDelay (attempt : ℕ) (rand : ℚ) : ℤ :=
  round (backoffBase attempt + backoffBase attempt * reconnectJitter * rand)

/-- The base delay as a natural number (the spec's
`min(initial * 2^(attempt-1), max)`). -/
def backoffBaseNat (attempt : ℕ) : ℕ :=
  min (5000 * 2 ^ (attempt - 1)) 60000

/-! ## Connection session (client.ts, createMqttClient) -/

/-- The underlying mqtt library client object, reduced to the one
field the session code reads: `connected`. -/
structure Client where
  connected : Bool
deriving DecidableEq

/-- The configuration fields the session code reads. -/
structure Config where
  brokerUrl : String
  qos : Nat
deriving DecidableEq

/-- The closure state of `createMqttClient`: `client`,
`messageHandlers`, `reconnectAttempts`, `reconnectTimer` (the armed
delay, if a timer is pending), `connectPromise` (whether a connect
attempt is in flight) and `manualDisconnect`. -/
structure Session where
  client : Option Client
  messageHandlers : Registry
  reconnectAttempts : Nat
  reconnectTimer : Option ℤ
  connectPromise : Bool
  manualDisconnect : Bool
deriving DecidableEq

/-- `isConnected()` from client.ts: `client?.connected ?? false`. -/
def isConnected (s : Session) : Bool :=
  match s.client with
  | some c => c.connected
  | none => false

/-- `scheduleReconnect` from client.ts: a no-op under
`manualDisconnect` or while a timer is pending; otherwise increments
the attempt counter, computes the backoff delay and arms a one-shot
timer. -/
def scheduleReconnect (s : Session) (rand : ℚ) : Session × List Action :=
  if s.manualDisconnect then (s, [])
  else if s.reconnectTimer.isSome then (s, [])
  else
    let attempts := s.reconnectAttempts + 1
    let delay := getBackoffDelay attempts rand
    ({ s with reconnectAttempts := attempts, reconnectTimer := some delay },
     [Action.armTimer delay])

/-- The "connect" listener of `attachClientHandlers`: reset the
attempt counter, cancel any pending timer and issue one underlying
subscribe per registered pattern with the configured default QoS.
The underlying library marks the client connected before emitting the
event. -/
def onConnectEvent (cfg : Config) (s : Session) : Session × List Action :=
  ({ s with client := s.client.map (fun _ => { connected := true }),
            reconnectAttempts := 0,
            reconnectTimer := none },
   s.messageHandlers.map (fun e => Action.subscribeU e.1 cfg.qos))

/-- The "message" listener of `attachClientHandlers`: collect the
exact-match handlers, append the wildcard matches, then run the
dispatch loop. -/
def onMessageEvent (s : Session) (topic : String) (payload : List Nat) :
    Session × List Action :=
  (s, handlerActions topic payload (collectHandlers s.messageHandlers topic))

/-- `connect()` from client.ts, up to the point where the connect
promise is created: early return when `client?.connected` or when a
connect promise is already in flight; otherwise clear
`manualDisconnect` and either create the underlying client (when none
exists) or call `client.reconnect()` on the existing one —
`reconnectThrows` says whether that call throws, in which case the
catch block schedules a reconnect with jitter sample `rand`. -/
def connect (s : Session) (reconnectThrows : Bool) (rand : ℚ) :
    Session × List Action :=
  if isConnected s then (s, [])
  else if s.connectPromise then (s, [])
  else
    let s1 := { s with manualDisconnect := false }
    match s1.client with
    | none =>
        ({ s1 with client := some { connected := false }, connectPromise := true },
         [Action.createClient])
    | some _ =>
        let step1 := if reconnectThrows then scheduleReconnect s1 rand else (s1, [])
        ({ step1.1 with connectPromise := true },
         Action.clientReconnect :: step1.2)

/-- The timer callback armed by `scheduleReconnect`: null the timer
handle, bail out under `manualDisconnect`, then either re-run
`connect()` (no client object) or call `client.reconnect()`, the
catch block scheduling a further reconnect. -/
def timerFire (s : Session) (reconnectThrows : Bool) (rand : ℚ) :
    Session × List Action :=
  let s0 := { s with reconnectTimer := none }
  if s0.manualDisconnect then (s0, [])
  else
    match s0.client with
    | none => connect s0 reconnectThrows rand
    | some _ =>
        if reconnectThrows then
          let step1 := scheduleReconnect s0 rand
          (step1.1, Action.clientReconnect :: step1.2)
        else (s0, [Action.clientReconnect])

/-- `disconnect()` from client.ts, including the `client.end`
completion callback: early return when no client exists; otherwise
set `manualDisconnect`, cancel any pending timer, zero the attempt
counter, drop the connect promise, close the underlying client and —
once the close completes — null the client and clear the registry. -/
def disconnect (s : Session) : Session × List Action :=
  match s.client with
  | none => (s, [])
  | some _ =>
      ({ s with client := none, messageHandlers := [], reconnectAttempts := 0,
                reconnectTimer := none, connectPromise := false,
                manualDisconnect := true },
       [Action.closeClient])

/-- `publish()` from client.ts: throws `"MQTT not connected"` unless
`client?.connected`; otherwise writes through `client.publish` and
resolves or rejects exactly as the delivery acknowledgment callback
reports (`ackError`). -/
def publish (s : Session) (topic message : String) (qos : Nat)
    (ackError : Option String) :
    Session × List Action × Except String Unit :=
  if !isConnected s then (s, [], Except.error "MQTT not connected")
  else
    (s, [Action.publishU topic message qos],
     match ackError with
     | some e => Except.error e
     | none => Except.ok ())

/-- `subscribe()` from client.ts: always registers the handler; when
currently connected, also issues the underlying subscribe immediately
with the configured default QoS. -/
def subscribe (cfg : Config) (s : Session) (pattern : String) (h : Handler) :
    Session × List Action :=
  let s1 := { s with messageHandlers := register s.messageHandlers pattern h }
  if isConnected s then (s1, [Action.subscribeU pattern cfg.qos])
  else (s1, [])

/-- The session state before any `connect()`. -/
def initialSession : Session :=
  { client := none, messageHandlers := [], reconnectAttempts := 0,
    reconnectTimer := none, connectPromise := false, manualDisconnect := false }

/-- The session state left behind by a completed manual disconnect. -/
def cleanSession : Session :=
  { client := none, messageHandlers := [], reconnectAttempts := 0,
    reconnectTimer := none, connectPromise := false, manualDisconnect := true }

/-- An underlying-client event (or timer firing) delivered to the
session, carrying the jitter sample for any reconnect scheduling it
triggers. -/
inductive SEvent where
  | closeEv (rand : ℚ)
  | errorEv (rand : ℚ)
  | offlineEv (rand : ℚ)
  | messageEv (topic : String) (payload : List Nat)
  | timerEv (reconnectThrows : Bool) (rand : ℚ)

/-- Deliver one event to the session: "close", "error" and "offline"
all call `scheduleReconnect`; "message" dispatches; a timer firing
runs the timer callback. -/
def step (s : Session) : SEvent → Session × List Action
  | SEvent.closeEv r => scheduleReconnect s r
  | SEvent.errorEv r => scheduleReconnect s r
  | SEvent.offlineEv r => scheduleReconnect s r
  | SEvent.messageEv t p => onMessageEvent s t p
  | SEvent.timerEv b r => timerFire s b r

/-- Deliver a sequence of events, accumulating the recorded calls. -/
def run : Session → List SEvent → Session × List Action
  | s, [] => (s, [])
  | s, e :: es =>
    let r1 := step s e
    let r2 := run r1.1 es
    (r2.1, r1.2 ++ r2.2)

theorem matchParts_self (l : List String) : matchParts l l = true := by
  induction l with
  | nil => rfl
  | cons p ps ih =>
    by_cases h1 : p = "#"
    · simp [matchParts, h1]
    · by_cases h2 : p = "+"
      · simp [matchParts, h1, h2, ih]
      · simp [matchParts, h1, h2, ih]

theorem topicMatches_of_wildcard (pattern topic : String)
    (h : hasWildcard pattern = true) :
    topicMatches pattern topic
      = matchParts (splitSlash pattern) (splitSlash topic) := by
  unfold topicMatches
  by_cases he : pattern = topic
  · subst he
    simp [matchParts_self]
  · have hw : (!includesChar pattern '+' && !includesChar pattern '#') = false := by
      unfold hasWildcard at h
      rcases Bool.or_eq_true_iff.mp h with h1 | h1 <;> simp [h1]
    simp [he, hw]

/-- C1: for a wildcard pattern, `topicMatches` splits both strings on
`/` and walks segments in lock-step; a `#` pattern segment succeeds
immediately for all remaining segments (so `matches "#" t` is true for
every topic `t` and `matches "home/#" "home"` is true); a `+` segment
requires a topic segment to exist at that position and consumes it
(`matches "home/+" "home"` is false); any other segment must equal the
topic segment literally; exhausting the pattern with no `#` succeeds
iff the segment sequences have equal length. -/
theorem claim_C1_topic_matcher_walk :
    (∀ pattern topic, hasWildcard pattern = true →
        topicMatches pattern topic
          = matchParts (splitSlash pattern) (splitSlash topic))
    ∧ (∀ ps ts, matchParts ("#" :: ps) ts = true)
    ∧ (∀ t, topicMatches "#" t = true)
    ∧ topicMatches "home/#" "home" = true
    ∧ (∀ ps, matchParts ("+" :: ps) [] = false)
    ∧ (∀ ps t ts, matchParts ("+" :: ps) (t :: ts) = matchParts ps ts)
    ∧ topicMatches "home/+" "home" = false
    ∧ (∀ p ps t ts, p ≠ "#" → p ≠ "+" →
        matchParts (p :: ps) (t :: ts)
          = if p = t then matchParts ps ts else false)
    ∧ (∀ p ps, p ≠ "#" → p ≠ "+" → matchParts (p :: ps) [] = false)
    ∧ (∀ ts, matchParts [] ts = ts.isEmpty) := by
  refine ⟨topicMatches_of_wildcard, ?_, ?_, by decide, ?_, ?_, by decide, ?_, ?_, ?_⟩
  · intro ps ts
    simp [matchParts]
  · intro t
    by_cases h : "#" = t
    · subst h
      simp [topicMatches]
    · rw [topicMatches_of_wildcard _ _ (by decide)]
      have hs : splitSlash "#" = ["#"] := by decide
      rw [hs]
      simp [matchParts]
  · intro ps
    simp [matchParts, show ("+" : String) ≠ "#" by decide]
  · intro ps t ts
    simp [matchParts, show ("+" : String) ≠ "#" by decide]
  · intro p ps t ts h1 h2
    simp [matchParts, h1, h2]
  · intro p ps h1 h2
    simp [matchParts, h1, h2]
  · intro ts
    simp [matchParts]

theorem claim_C1_topic_matcher_walk_witness :
    hasWildcard "a/#" = true ∧
      topicMatches "a/#" "a/b"
        = matchParts (splitSlash "a/#") (splitSlash "a/b") :=
  ⟨by decide, claim_C1_topic_matcher_walk.1 "a/#" "a/b" (by decide)⟩

/-- C9: a pattern containing neither `+` nor `#` matches exactly the
topics equal to it as strings, and exact string equality always
matches, for every pattern. -/
theorem claim_C9_no_wildcard_exact_equality :
    (∀ pattern topic,
        includesChar pattern '+' = false → includesChar pattern '#' = false →
        (topicMatches pattern topic = true ↔ pattern = topic))
    ∧ (∀ pattern, topicMatches pattern pattern = true) := by
  constructor
  · intro pattern topic h1 h2
    constructor
    · intro hm
      by_contra hne
      simp [topicMatches, hne, h1, h2] at hm
    · intro he
      subst he
      simp [topicMatches]
  · intro pattern
    simp [topicMatches]

theorem claim_C9_no_wildcard_exact_equality_witness :
    includesChar "a/b" '+' = false ∧ includesChar "a/b" '#' = false ∧
      (topicMatches "a/b" "a/b" = true ↔ ("a/b" : String) = "a/b") :=
  ⟨by decide, by decide,
    claim_C9_no_wildcard_exact_equality.1 "a/b" "a/b" (by decide) (by decide)⟩

theorem invokedCalls_append (a b : List Action) :
    invokedCalls (a ++ b) = invokedCalls a ++ invokedCalls b := by
  simp [invokedCalls, List.filterMap_append]

theorem invokedCalls_handlerActions (topic : String) (payload : List Nat)
    (hs : List Handler) :
    invokedCalls (handlerActions topic payload hs)
      = hs.map (fun h => (h.id, topic, payload)) := by
  induction hs with
  | nil => rfl
  | cons h rest ih =>
    by_cases hf : h.fails
    · rw [show handlerActions topic payload (h :: rest)
          = [Action.invoke h.id topic payload, Action.logHandlerError h.id]
            ++ handlerActions topic payload rest by
            simp [handlerActions, runHandler, hf]]
      rw [invokedCalls_append, ih]
      simp [invokedCalls]
    · rw [show handlerActions topic payload (h :: rest)
          = [Action.invoke h.id topic payload]
            ++ handlerActions topic payload rest by
            simp [handlerActions, runHandler, hf]]
      rw [invokedCalls_append, ih]
      simp [invokedCalls]

theorem loggedHandlerErrors_handlerActions (topic : String) (payload : List Nat)
    (hs : List Handler) :
    loggedHandlerErrors (handlerActions topic payload hs)
      = (hs.filter fun h => h.fails).map (fun h => h.id) := by
  induction hs with
  | nil => rfl
  | cons h rest ih =>
    by_cases hf : h.fails
    · simp [handlerActions, runHandler, hf, loggedHandlerErrors,
        List.filterMap_append] at ih ⊢
      exact ih
    · simp [handlerActions, runHandler, hf, loggedHandlerErrors,
        List.filterMap_append] at ih ⊢
      exact ih

theorem mapGet_mapSet_self (m : Registry) (k : String) (v : List Handler) :
    mapGet (mapSet m k v) k = some v := by
  induction m with
  | nil => simp [mapSet, mapGet]
  | cons e rest ih =>
    obtain ⟨k2, v2⟩ := e
    by_cases hk : k2 = k
    · simp [mapSet, hk, mapGet]
    · simp [mapSet, hk, mapGet, ih]

theorem mapGet_mapSet_ne (m : Registry) (k k2 : String) (v : List Handler)
    (h : k ≠ k2) :
    mapGet (mapSet m k v) k2 = mapGet m k2 := by
  induction m with
  | nil => simp [mapSet, mapGet, h]
  | cons e rest ih =>
    obtain ⟨a, b⟩ := e
    by_cases ha : a = k
    · simp [mapSet, ha, mapGet, h]
    · simp [mapSet, ha, mapGet, ih]

theorem wildcardHandlers_eq (topic : String) (m : Registry) :
    wildcardHandlers topic m
      = List.flatten
          ((m.filter fun e => decide (e.1 ≠ topic) && topicMatches e.1 topic).map
            fun e => e.2) := by
  induction m with
  | nil => rfl
  | cons e rest ih =>
    obtain ⟨pattern, phs⟩ := e
    by_cases h1 : pattern = topic
    · simp [wildcardHandlers, h1, List.filter_cons, ih]
    · by_cases h2 : topicMatches pattern topic
      · simp [wildcardHandlers, h1, h2, List.filter_cons, ih]
      · simp [wildcardHandlers, h1, h2, List.filter_cons, ih]

theorem wildcardHandlers_mapSet (topic pattern : String) (v : List Handler)
    (m : Registry) (hne : pattern ≠ topic)
    (hm : topicMatches pattern topic = true) :
    ∃ A B, wildcardHandlers topic (mapSet m pattern v) = A ++ v ++ B := by
  induction m with
  | nil =>
    refine ⟨[], [], ?_⟩
    simp [mapSet, wildcardHandlers, hne, hm]
  | cons e rest ih =>
    obtain ⟨k2, v2⟩ := e
    by_cases hk : k2 = pattern
    · refine ⟨[], wildcardHandlers topic rest, ?_⟩
      simp [mapSet, hk, wildcardHandlers, hne, hm]
    · obtain ⟨A, B, hAB⟩ := ih
      by_cases h1 : k2 = topic
      · subst h1
        exact ⟨A, B, by simp [mapSet, hk, wildcardHandlers, hAB]⟩
      · by_cases h2 : topicMatches k2 topic
        · exact ⟨v2 ++ A, B, by
            simp [mapSet, hk, wildcardHandlers, h1, h2, hAB, List.append_assoc]⟩
        · exact ⟨A, B, by simp [mapSet, hk, wildcardHandlers, h1, h2, hAB]⟩

/-- C2: dispatch invokes first the handlers under the exact-match
entry for the concrete topic in registration order, then, for every
other stored pattern accepted by the topic matcher, that pattern's
handlers in registration order; the exact-match entry is never
re-tested by the wildcard pass, so a handler registered only under
the literal topic is invoked exactly as often as it occurs there; and
registering `h1` then `h2` under one pattern invokes `h1` before `h2`
on a matching dispatch. -/
theorem claim_C2_dispatch_order :
    (∀ s topic payload,
        invokedCalls ((onMessageEvent s topic payload).2)
          = (collectHandlers s.messageHandlers topic).map
              fun h => (h.id, topic, payload))
    ∧ (∀ m topic,
        collectHandlers m topic
          = (mapGet m topic).getD []
            ++ List.flatten
                ((m.filter fun e => decide (e.1 ≠ topic) && topicMatches e.1 topic).map
                  fun e => e.2))
    ∧ (∀ (m : Registry) (topic : String) (hs : List Handler) (x : Nat),
        mapGet m topic = some hs →
        (∀ e ∈ m, e.1 ≠ topic → x ∉ e.2.map Handler.id) →
        ((collectHandlers m topic).map Handler.id).count x
          = (hs.map Handler.id).count x)
    ∧ (∀ (m : Registry) (pattern : String) (h1 h2 : Handler) (topic : String),
        topicMatches pattern topic = true →
        ∃ A B,
          (collectHandlers (register (register m pattern h1) pattern h2)
              topic).map Handler.id
            = A ++ h1.id :: h2.id :: B) := by
  refine ⟨?_, ?_, ?_, ?_⟩
  · intro s topic payload
    simp [onMessageEvent, invokedCalls_handlerActions]
  · intro m topic
    rw [collectHandlers, wildcardHandlers_eq]
  · intro m topic hs x hget hnot
    have hw : x ∉ (wildcardHandlers topic m).map Handler.id := by
      rw [wildcardHandlers_eq]
      intro hx
      rw [List.mem_map] at hx
      obtain ⟨h, hmem, hid⟩ := hx
      rw [List.mem_flatten] at hmem
      obtain ⟨l, hl, hhl⟩ := hmem
      rw [List.mem_map] at hl
      obtain ⟨e, he, rfl⟩ := hl
      rw [List.mem_filter] at he
      obtain ⟨hem, hcond⟩ := he
      simp only [Bool.and_eq_true, decide_eq_true_eq] at hcond
      exact hnot e hem hcond.1 (List.mem_map.mpr ⟨h, hhl, hid⟩)
    simp [collectHandlers, hget, List.map_append, List.count_append,
      List.count_eq_zero.mpr hw]
  · intro m pattern h1 h2 topic hm
    have hget1 : mapGet (register m pattern h1) pattern
        = some ((mapGet m pattern).getD [] ++ [h1]) := by
      simp [register, mapGet_mapSet_self]
    have hreg2 : register (register m pattern h1) pattern h2
        = mapSet (register m pattern h1) pattern
            ((mapGet m pattern).getD [] ++ [h1] ++ [h2]) := by
      simp [register, mapGet_mapSet_self, List.append_assoc]
    by_cases hpt : pattern = topic
    · subst hpt
      have hget2 : mapGet (register (register m pattern h1) pattern h2) pattern
          = some ((mapGet m pattern).getD [] ++ [h1] ++ [h2]) := by
        rw [hreg2]
        exact mapGet_mapSet_self _ _ _
      refine ⟨((mapGet m pattern).getD []).map Handler.id,
        (wildcardHandlers pattern
          (register (register m pattern h1) pattern h2)).map Handler.id, ?_⟩
      simp [collectHandlers, hget2, List.map_append]
    · obtain ⟨A, B, hAB⟩ :=
        wildcardHandlers_mapSet topic pattern
          ((mapGet m pattern).getD [] ++ [h1] ++ [h2])
          (register m pattern h1) hpt hm
      refine ⟨((mapGet (register (register m pattern h1) pattern h2)
            topic).getD []).map Handler.id
          ++ A.map Handler.id ++ ((mapGet m pattern).getD []).map Handler.id,
        B.map Handler.id, ?_⟩
      rw [collectHandlers]
      conv_lhs => rw [hreg2]
      rw [hAB, ← hreg2]
      simp [List.map_append, List.append_assoc]

theorem claim_C2_dispatch_order_witness :
    topicMatches "a/+" "a/b" = true ∧
      ∃ A B,
        (collectHandlers
            (register (register [] "a/+" ⟨1, false⟩) "a/+" ⟨2, false⟩)
            "a/b").map Handler.id
          = A ++ 1 :: 2 :: B :=
  ⟨by decide,
    claim_C2_dispatch_order.2.2.2 [] "a/+" ⟨1, false⟩ ⟨2, false⟩ "a/b" (by decide)⟩

/-- C8: during dispatch, a throwing handler is caught and logged,
every remaining handler is still invoked with the same topic and
payload, the dispatch function returns normally to its caller with
the session unchanged, and in particular a throw from the first
handler never prevents the second from running. -/
theorem claim_C8_handler_error_isolation :
    (∀ (topic : String) (payload : List Nat) (hs : List Handler),
        invokedCalls (handlerActions topic payload hs)
          = hs.map fun h => (h.id, topic, payload))
    ∧ (∀ (topic : String) (payload : List Nat) (hs : List Handler),
        loggedHandlerErrors (handlerActions topic payload hs)
          = (hs.filter fun h => h.fails).map fun h => h.id)
    ∧ (∀ s topic payload, (onMessageEvent s topic payload).1 = s)
    ∧ invokedCalls (handlerActions "t" [1] [⟨1, true⟩, ⟨2, false⟩])
        = [(1, "t", [1]), (2, "t", [1])] := by
  refine ⟨invokedCalls_handlerActions, loggedHandlerErrors_handlerActions, ?_, by decide⟩
  intro s topic payload
  rfl

theorem backoffBase_eq_cast (attempt : ℕ) :
    backoffBase attempt = (backoffBaseNat attempt : ℚ) := by
  unfold backoffBase backoffBaseNat defaultReconnectMs maxReconnectMs
  rw [Nat.cast_min]
  push_cast
  ring_nf

theorem five_dvd_backoffBaseNat (attempt : ℕ) : 5 ∣ backoffBaseNat attempt := by
  unfold backoffBaseNat
  rcases min_cases (5000 * 2 ^ (attempt - 1)) 60000 with ⟨h, _⟩ | ⟨h, _⟩ <;> rw [h]
  · exact ⟨1000 * 2 ^ (attempt - 1), by ring⟩
  · exact ⟨12000, by norm_num⟩

theorem backoffBaseNat_pos (attempt : ℕ) : 0 < backoffBaseNat attempt := by
  unfold backoffBaseNat
  refine lt_min ?_ (by norm_num)
  positivity

theorem backoffBaseNat_mono {a b : ℕ} (h : a ≤ b) :
    backoffBaseNat a ≤ backoffBaseNat b := by
  unfold backoffBaseNat
  exact min_le_min
    (Nat.mul_le_mul_left _
      (Nat.pow_le_pow_right (by norm_num) (Nat.sub_le_sub_right h 1)))
    le_rfl

/-- C4: for every attempt and every jitter sample in `[0, 1)`, the
computed reconnect delay equals
`round(base + base * 0.2 * rand)` with
`base = min(5000 * 2^(attempt-1), 60000)`; consequently the delay
lies within `[base, base * 1.2]`, and for a fixed jitter sample the
delay is non-decreasing in the attempt number up to the cap. -/
theorem claim_C4_backoff_delay :
    (∀ (attempt : ℕ) (rand : ℚ), 1 ≤ attempt → 0 ≤ rand → rand < 1 →
        getBackoffDelay attempt rand
          = round ((backoffBaseNat attempt : ℚ)
              + (backoffBaseNat attempt : ℚ) * (1 / 5) * rand))
    ∧ (∀ (attempt : ℕ) (rand : ℚ), 0 ≤ rand → rand < 1 →
        (backoffBaseNat attempt : ℚ) ≤ (getBackoffDelay attempt rand : ℚ)
          ∧ (getBackoffDelay attempt rand : ℚ)
              ≤ (backoffBaseNat attempt : ℚ) * (6 / 5))
    ∧ (∀ (a b : ℕ) (rand : ℚ), 0 ≤ rand → a ≤ b →
        getBackoffDelay a rand ≤ getBackoffDelay b rand) := by
  have hdelay : ∀ (attempt : ℕ) (rand : ℚ),
      getBackoffDelay attempt rand
        = ⌊(backoffBaseNat attempt : ℚ)
            + (backoffBaseNat attempt : ℚ) * (1 / 5) * rand + 1 / 2⌋ := by
    intro attempt rand
    unfold getBackoffDelay reconnectJitter
    rw [backoffBase_eq_cast, round_eq]
  refine ⟨?_, ?_, ?_⟩
  · intro attempt rand _ _ _
    rw [hdelay, round_eq]
  · intro attempt rand h0 h1
    obtain ⟨c, hc⟩ := five_dvd_backoffBaseNat attempt
    have hcpos : 0 < c := by
      have := backoffBaseNat_pos attempt
      omega
    have hcq : (0 : ℚ) < (c : ℚ) := by exact_mod_cast hcpos
    have hB : (backoffBaseNat attempt : ℚ) = 5 * (c : ℚ) := by
      rw [hc]
      push_cast
      ring
    rw [hdelay]
    constructor
    · have hle : (backoffBaseNat attempt : ℤ)
          ≤ ⌊(backoffBaseNat attempt : ℚ)
              + (backoffBaseNat attempt : ℚ) * (1 / 5) * rand + 1 / 2⌋ := by
        apply Int.le_floor.mpr
        have hj : 0 ≤ (backoffBaseNat attempt : ℚ) * (1 / 5) * rand := by
          positivity
        push_cast
        linarith
      exact_mod_cast hle
    · have hfl : ⌊(backoffBaseNat attempt : ℚ)
            + (backoffBaseNat attempt : ℚ) * (1 / 5) * rand + 1 / 2⌋
          < 6 * (c : ℤ) + 1 := by
        apply Int.floor_lt.mpr
        rw [hB]
        push_cast
        nlinarith [mul_lt_mul_of_pos_left h1 hcq]
      have hle : ⌊(backoffBaseNat attempt : ℚ)
            + (backoffBaseNat attempt : ℚ) * (1 / 5) * rand + 1 / 2⌋
          ≤ 6 * (c : ℤ) := by omega
      have hcast : ((6 * (c : ℤ) : ℤ) : ℚ)
          = (backoffBaseNat attempt : ℚ) * (6 / 5) := by
        rw [hB]
        push_cast
        ring
      calc ((⌊(backoffBaseNat attempt : ℚ)
              + (backoffBaseNat attempt : ℚ) * (1 / 5) * rand + 1 / 2⌋ : ℤ) : ℚ)
          ≤ ((6 * (c : ℤ) : ℤ) : ℚ) := by exact_mod_cast hle
        _ = (backoffBaseNat attempt : ℚ) * (6 / 5) := hcast
  · intro a b rand h0 hab
    rw [hdelay, hdelay]
    apply Int.floor_mono
    have hBB : (backoffBaseNat a : ℚ) ≤ (backoffBaseNat b : ℚ) := by
      exact_mod_cast backoffBaseNat_mono hab
    have hBa : (0 : ℚ) ≤ (backoffBaseNat a : ℚ) := by positivity
    nlinarith [mul_le_mul_of_nonneg_right hBB h0]

theorem claim_C4_backoff_delay_witness :
    (0 : ℚ) ≤ 1 / 2 ∧ (1 / 2 : ℚ) < 1 ∧
      (backoffBaseNat 3 : ℚ) ≤ (getBackoffDelay 3 (1 / 2) : ℚ) ∧
      (getBackoffDelay 3 (1 / 2) : ℚ) ≤ (backoffBaseNat 3 : ℚ) * (6 / 5) :=
  ⟨by norm_num, by norm_num,
    (claim_C4_backoff_delay.2.1 3 (1 / 2) (by norm_num) (by norm_num)).1,
    (claim_C4_backoff_delay.2.1 3 (1 / 2) (by norm_num) (by norm_num)).2⟩

theorem subscribedPatterns_map_subscribeU (q : Nat) (m : Registry) :
    subscribedPatterns (m.map fun e => Action.subscribeU e.1 q)
      = registryKeys m := by
  induction m with
  | nil => rfl
  | cons e rest ih =>
    simp [subscribedPatterns, registryKeys] at ih ⊢
    exact ih

/-- C5: when the underlying "connect" event fires, the session resets
the attempt counter to zero, cancels any pending reconnect timer and
issues exactly one underlying subscribe per pattern currently stored
in the registry — none missing, no duplicates when the registry keys
are distinct — each using the configured default QoS rather than any
per-pattern level. -/
theorem claim_C5_resubscribe_on_connect :
    (∀ cfg s, (onConnectEvent cfg s).1.reconnectAttempts = 0)
    ∧ (∀ cfg s, (onConnectEvent cfg s).1.reconnectTimer = none)
    ∧ (∀ cfg s, (onConnectEvent cfg s).2
        = s.messageHandlers.map fun e => Action.subscribeU e.1 cfg.qos)
    ∧ (∀ cfg s, subscribedPatterns ((onConnectEvent cfg s).2)
        = registryKeys s.messageHandlers)
    ∧ (∀ cfg s, keysNodup s.messageHandlers →
        (subscribedPatterns ((onConnectEvent cfg s).2)).Nodup)
    ∧ (∀ cfg s p q, Action.subscribeU p q ∈ (onConnectEvent cfg s).2 →
        q = cfg.qos) := by
  have hpat : ∀ (cfg : Config) (s : Session),
      subscribedPatterns ((onConnectEvent cfg s).2)
        = registryKeys s.messageHandlers := by
    intro cfg s
    exact subscribedPatterns_map_subscribeU cfg.qos s.messageHandlers
  refine ⟨fun cfg s => rfl, fun cfg s => rfl, fun cfg s => rfl, hpat, ?_, ?_⟩
  · intro cfg s hnd
    rw [hpat]
    exact hnd
  · intro cfg s p q hmem
    simp only [onConnectEvent, List.mem_map] at hmem
    obtain ⟨e, _, heq⟩ := hmem
    cases heq
    rfl

theorem claim_C5_resubscribe_on_connect_witness :
    keysNodup [("a", ([] : List Handler)), ("b", [])] ∧
      (subscribedPatterns
        ((onConnectEvent { brokerUrl := "u", qos := 1 }
          { client := some { connected := true },
            messageHandlers := [("a", []), ("b", [])],
            reconnectAttempts := 0, reconnectTimer := none,
            connectPromise := false, manualDisconnect := false }).2)).Nodup :=
  ⟨by unfold keysNodup registryKeys; decide,
    claim_C5_resubscribe_on_connect.2.2.2.2.1 { brokerUrl := "u", qos := 1 }
      { client := some { connected := true },
        messageHandlers := [("a", []), ("b", [])],
        reconnectAttempts := 0, reconnectTimer := none,
        connectPromise := false, manualDisconnect := false }
      (by unfold keysNodup registryKeys; decide)⟩

theorem createClient_not_mem_scheduleReconnect (s : Session) (r : ℚ) :
    Action.createClient ∉ (scheduleReconnect s r).2 := by
  unfold scheduleReconnect
  split
  · simp
  · split
    · simp
    · simp

theorem scheduleReconnect_actions (s : Session) (r : ℚ) :
    (scheduleReconnect s r).2 = []
      ∨ (scheduleReconnect s r).2
          = [Action.armTimer (getBackoffDelay (s.reconnectAttempts + 1) r)] := by
  unfold scheduleReconnect
  split
  · left
    rfl
  · split
    · left
      rfl
    · right
      rfl

/-- C6: at most one in-flight connect attempt and at most one pending
reconnect timer: `connect()` while connected or while an attempt is
in flight returns with no state change and no underlying call that
creates a connection object; with an existing client object no
`createClient` call is ever made; and scheduling a reconnect while a
timer is pending, or after a manual disconnect, changes nothing. -/
theorem claim_C6_single_flight :
    (∀ s b r, isConnected s = true → connect s b r = (s, []))
    ∧ (∀ s b r, s.connectPromise = true → connect s b r = (s, []))
    ∧ (∀ s b r, s.client.isSome → Action.createClient ∉ (connect s b r).2)
    ∧ (∀ s r, s.reconnectTimer.isSome → scheduleReconnect s r = (s, []))
    ∧ (∀ s r, s.manualDisconnect = true → scheduleReconnect s r = (s, [])) := by
  refine ⟨?_, ?_, ?_, ?_, ?_⟩
  · intro s b r h
    simp [connect, h]
  · intro s b r h
    by_cases hc : isConnected s
    · simp [connect, hc]
    · simp [connect, hc, h]
  · intro s b r hs
    obtain ⟨c, hc⟩ := Option.isSome_iff_exists.mp hs
    by_cases h1 : isConnected s
    · simp [connect, h1]
    · by_cases h2 : s.connectPromise
      · simp [connect, h1, h2]
      · cases b with
        | false => simp [connect, h1, h2, hc]
        | true =>
          simp [connect, h1, h2, hc, createClient_not_mem_scheduleReconnect]
  · intro s r h
    simp [scheduleReconnect, h]
  · intro s r h
    simp [scheduleReconnect, h]

theorem claim_C6_single_flight_witness :
    ({ client := some { connected := false }, messageHandlers := [],
       reconnectAttempts := 0, reconnectTimer := none,
       connectPromise := true, manualDisconnect := false } : Session).connectPromise
        = true ∧
      connect
        { client := some { connected := false }, messageHandlers := [],
          reconnectAttempts := 0, reconnectTimer := none,
          connectPromise := true, manualDisconnect := false } false 0
        = ({ client := some { connected := false }, messageHandlers := [],
             reconnectAttempts := 0, reconnectTimer := none,
             connectPromise := true, manualDisconnect := false }, []) :=
  ⟨rfl,
    claim_C6_single_flight.2.1
      { client := some { connected := false }, messageHandlers := [],
        reconnectAttempts := 0, reconnectTimer := none,
        connectPromise := true, manualDisconnect := false } false 0 rfl⟩

/-- C7: `publish` fails with the `"MQTT not connected"` error whenever
the underlying connection is not currently connected — in particular
before any successful connect — leaving the session unchanged and
making no underlying call; when connected it writes through the
underlying client and resolves or rejects exactly as the delivery
acknowledgment reports. -/
theorem claim_C7_publish_not_connected :
    (∀ s topic message qos ack, isConnected s = false →
        publish s topic message qos ack
          = (s, [], Except.error "MQTT not connected"))
    ∧ isConnected initialSession = false
    ∧ (∀ b r, isConnected (connect initialSession b r).1 = false)
    ∧ (∀ topic message qos ack,
        publish initialSession topic message qos ack
          = (initialSession, [], Except.error "MQTT not connected"))
    ∧ (∀ s topic message qos, isConnected s = true →
        publish s topic message qos none
            = (s, [Action.publishU topic message qos], Except.ok ())
          ∧ ∀ e, publish s topic message qos (some e)
              = (s, [Action.publishU topic message qos], Except.error e)) := by
  refine ⟨?_, rfl, ?_, ?_, ?_⟩
  · intro s topic message qos ack h
    simp [publish, h]
  · intro b r
    rfl
  · intro topic message qos ack
    rfl
  · intro s topic message qos h
    constructor
    · simp [publish, h]
    · intro e
      simp [publish, h]

theorem claim_C7_publish_not_connected_witness :
    isConnected initialSession = false ∧
      publish initialSession "a" "m" 0 none
        = (initialSession, [], Except.error "MQTT not connected") :=
  ⟨rfl, claim_C7_publish_not_connected.1 initialSession "a" "m" 0 none rfl⟩

theorem step_cleanSession (e : SEvent) : step cleanSession e = (cleanSession, []) := by
  cases e with
  | closeEv r => simp [step, scheduleReconnect, cleanSession]
  | errorEv r => simp [step, scheduleReconnect, cleanSession]
  | offlineEv r => simp [step, scheduleReconnect, cleanSession]
  | messageEv t p =>
    simp [step, onMessageEvent, cleanSession, collectHandlers, mapGet,
      wildcardHandlers, handlerActions]
  | timerEv b r => simp [step, timerFire, cleanSession]

/-- C3: a manual `disconnect()` on a live client sets the
manual-disconnect flag, cancels any pending reconnect timer, zeroes
the attempt counter, clears the handler registry and closes the
underlying client; afterwards, until a new `connect()`, no sequence
of underlying close/error/offline/message events or timer firings
changes the session or makes any underlying call — the attempt
counter stays at zero, no timer is armed and no handler is
dispatched. -/
theorem claim_C3_manual_disconnect :
    (∀ s c, s.client = some c →
        disconnect s = (cleanSession, [Action.closeClient]))
    ∧ cleanSession.manualDisconnect = true
    ∧ cleanSession.reconnectTimer = none
    ∧ cleanSession.reconnectAttempts = 0
    ∧ cleanSession.messageHandlers = []
    ∧ cleanSession.client = none
    ∧ (∀ events, run cleanSession events = (cleanSession, [])) := by
  refine ⟨?_, rfl, rfl, rfl, rfl, rfl, ?_⟩
  · intro s c hc
    simp [disconnect, hc, cleanSession]
  · intro events
    induction events with
    | nil => rfl
    | cons e es ih =>
      simp [run, step_cleanSession, ih]

theorem claim_C3_manual_disconnect_witness :
    ({ client := some { connected := true },
       messageHandlers := [("a", [⟨1, false⟩])],
       reconnectAttempts := 2, reconnectTimer := some 7,
       connectPromise := false, manualDisconnect := false } : Session).client
        = some { connected := true } ∧
      disconnect
        { client := some { connected := true },
          messageHandlers := [("a", [⟨1, false⟩])],
          reconnectAttempts := 2, reconnectTimer := some 7,
          connectPromise := false, manualDisconnect := false }
        = (cleanSession, [Action.closeClient]) :=
  ⟨rfl,
    claim_C3_manual_disconnect.1
      { client := some { connected := true },
        messageHandlers := [("a", [⟨1, false⟩])],
        reconnectAttempts := 2, reconnectTimer := some 7,
        connectPromise := false, manualDisconnect := false }
      { connected := true } rfl⟩

/-- C10: `disconnect()` when no underlying client object exists —
before any `connect()`, or after a prior `disconnect()` completed —
returns immediately with no underlying call and leaves the whole
session state unchanged; in particular handlers registered through
`subscribe` while disconnected stay in the registry. -/
theorem claim_C10_disconnect_no_client :
    (∀ s, s.client = none → disconnect s = (s, []))
    ∧ (∀ s, disconnect (disconnect s).1 = ((disconnect s).1, []))
    ∧ (∀ cfg s pattern h, s.client = none →
        disconnect (subscribe cfg s pattern h).1
            = ((subscribe cfg s pattern h).1, [])
          ∧ (subscribe cfg s pattern h).1.messageHandlers
              = register s.messageHandlers pattern h) := by
  have hnone : ∀ s : Session, s.client = none → disconnect s = (s, []) := by
    intro s h
    simp [disconnect, h]
  refine ⟨hnone, ?_, ?_⟩
  · intro s
    rcases hc : s.client with _ | c
    · rw [hnone s hc]
      exact hnone s hc
    · have : (disconnect s).1.client = none := by
        simp [disconnect, hc]
      exact hnone _ this
  · intro cfg s pattern h hc
    have hcl : (subscribe cfg s pattern h).1.client = s.client := by
      unfold subscribe
      split <;> rfl
    have hmh : (subscribe cfg s pattern h).1.messageHandlers
        = register s.messageHandlers pattern h := by
      unfold subscribe
      split <;> rfl
    exact ⟨hnone _ (hcl.trans hc), hmh⟩

theorem claim_C10_disconnect_no_client_witness :
    (initialSession.client = none) ∧
      disconnect initialSession = (initialSession, []) :=
  ⟨rfl, claim_C10_disconnect_no_client.1 initialSession rfl⟩

end OpenclawMqtt
